import Mathlib

/-
Verification of the BOSH exporter deployments collector
(src/collectors/deployments_collector.go) against its specification.

The Go code is shallowly embedded: Prometheus `GaugeVec` containers become
association lists from label-value vectors to numeric values (the real
container is a hash map with no duplicate keys and unspecified iteration
order; the association list realises one admissible iteration order, namely
insertion order, and `gvSetEntries` updates in place exactly as the hash map
does).  Gauge values in this collector are always small non-negative
integers (the constant 1, instance counts, unix seconds), for which the
`float64` stores performed by the Go code are exact, so values are modelled
as `Nat`.  Wall-clock readings (`time.Now().Unix()` and
`time.Since(begun).Seconds()`) are passed to `Collect` as explicit
parameters, and the `chan<- prometheus.Metric` sends become an explicit
output list of samples.
-/

namespace Collectors

/-- Release of a deployment: a name and a version, as in
`deployments.DeploymentInfo.Releases`. -/
structure Release where
  name : String
  version : String
deriving DecidableEq, Repr

/-- Stemcell of a deployment: name, version and OS name, as in
`deployments.DeploymentInfo.Stemcells`. -/
structure Stemcell where
  name : String
  version : String
  osName : String
deriving DecidableEq, Repr

/-- Instance of a deployment; only the `VMType` field is consumed by the
collector. -/
structure Instance where
  vmType : String
deriving DecidableEq, Repr

/-- One deployment of the snapshot handed to `Collect`. -/
structure DeploymentInfo where
  name : String
  releases : List Release
  stemcells : List Stemcell
  instances : List Instance
deriving DecidableEq, Repr

/-- Sample sent on the output channel: metric name, constant labels
(label-name/label-value pairs), variable label values, and the gauge value. -/
structure Sample where
  name : String
  constLabels : List (String × String)
  labels : List String
  value : Nat
deriving DecidableEq, Repr

/-- Static descriptor of a metric family, as emitted by `Describe`. -/
structure Desc where
  name : String
  help : String
  constLabels : List (String × String)
  variableLabels : List String
deriving DecidableEq, Repr

/-- Entries of a `GaugeVec`: label-value vector to gauge value.  The real
Prometheus container is keyed by the label values exactly like this list. -/
abbrev GaugeEntries := List (List String × Nat)

/-- Store a value under a label-value key, updating in place when the key is
already present and appending otherwise — the behaviour of
`GaugeVec.WithLabelValues(...).Set(...)`. -/
def gvSetEntries : GaugeEntries → List String → Nat → GaugeEntries
  | [], k, v => [(k, v)]
  | (k', v') :: rest, k, v =>
      if k' = k then (k', v) :: rest else (k', v') :: gvSetEntries rest k v

/-- Current value stored under a label-value key, if any. -/
def gvLookup : GaugeEntries → List String → Option Nat
  | [], _ => none
  | (k', v') :: rest, k => if k' = k then some v' else gvLookup rest k

/-- Label-value keys currently present in the container. -/
def gvKeys (entries : GaugeEntries) : List (List String) :=
  entries.map Prod.fst

/-- Apply a list of writes (key, value) in order, each via `gvSetEntries`. -/
def setAll (entries : GaugeEntries) (ws : List (List String × Nat)) : GaugeEntries :=
  ws.foldl (fun acc w => gvSetEntries acc w.1 w.2) entries

/-- Embedding of `prometheus.GaugeVec`: descriptor data plus current entries. -/
structure GaugeVec where
  name : String
  help : String
  constLabels : List (String × String)
  labelNames : List String
  entries : GaugeEntries
deriving DecidableEq, Repr

/-- WithLabelValues(...).Set(...) on a `GaugeVec`. -/
def gvSet (g : GaugeVec) (k : List String) (v : Nat) : GaugeVec :=
  { g with entries := gvSetEntries g.entries k v }

/-- GaugeVec.Reset: delete all stored label combinations. -/
def gvReset (g : GaugeVec) : GaugeVec :=
  { g with entries := [] }

/-- GaugeVec.Collect: send one sample per stored label combination. -/
def gvCollect (g : GaugeVec) : List Sample :=
  g.entries.map (fun p => ⟨g.name, g.constLabels, p.1, p.2⟩)

/-- GaugeVec.Describe: the single static descriptor of the family. -/
def gvDesc (g : GaugeVec) : Desc :=
  ⟨g.name, g.help, g.constLabels, g.labelNames⟩

/-- Embedding of a scalar `prometheus.Gauge`. -/
structure Gauge where
  name : String
  help : String
  constLabels : List (String × String)
  value : Nat
deriving DecidableEq, Repr

/-- Gauge.Set. -/
def gSet (g : Gauge) (v : Nat) : Gauge :=
  { g with value := v }

/-- Gauge.Collect: a single sample with no variable labels. -/
def gCollect (g : Gauge) : List Sample :=
  [⟨g.name, g.constLabels, [], g.value⟩]

/-- Gauge.Describe. -/
def gDesc (g : Gauge) : Desc :=
  ⟨g.name, g.help, g.constLabels, []⟩

/-- prometheus.BuildFQName: join namespace, subsystem and name with
underscores, skipping empty parts. -/
def buildFQName (ns subsystem nm : String) : String :=
  if nm = "" then ""
  else if ns ≠ "" ∧ subsystem ≠ "" then ns ++ "_" ++ subsystem ++ "_" ++ nm
  else if ns ≠ "" then ns ++ "_" ++ nm
  else if subsystem ≠ "" then subsystem ++ "_" ++ nm
  else nm

/-- Go `vm_type_count[k] = vm_type_count[k] + 1`: increment the tally entry
for `k` in place, a missing key reading as zero. -/
def vmTypeBump : List (String × Nat) → String → List (String × Nat)
  | [], k => [(k, 1)]
  | (k', c) :: rest, k =>
      if k' = k then (k', c + 1) :: rest else (k', c) :: vmTypeBump rest k

/-- Lookup in the per-deployment tally. -/
def sLookup : List (String × Nat) → String → Option Nat
  | [], _ => none
  | (k', v) :: rest, k => if k' = k then some v else sLookup rest k

/-- Per-deployment tally from VM type to instance count, built by scanning
all instances once (`reportDeploymentInstanceCountMetrics`, first loop). -/
def vmTypeCount (instances : List Instance) : List (String × Nat) :=
  instances.foldl (fun m i => vmTypeBump m i.vmType) []

/-- The collector: five metric containers, as in the Go struct. -/
structure DeploymentsCollector where
  deploymentReleaseInfoMetric : GaugeVec
  deploymentStemcellInfoMetric : GaugeVec
  deploymentInstanceCountMetric : GaugeVec
  lastDeploymentsScrapeTimestampMetric : Gauge
  lastDeploymentsScrapeDurationSecondsMetric : Gauge
deriving DecidableEq, Repr

/-- NewDeploymentsCollector: build the five metric families with constant
labels environment, bosh_name, bosh_uuid baked in. -/
def NewDeploymentsCollector (ns environment boshName boshUUID : String) :
    DeploymentsCollector :=
  let constLabels : List (String × String) :=
    [("environment", environment), ("bosh_name", boshName), ("bosh_uuid", boshUUID)]
  { deploymentReleaseInfoMetric :=
      { name := buildFQName ns "deployment" "release_info"
        help := "Labeled BOSH Deployment Release Info with a constant '1' value."
        constLabels := constLabels
        labelNames := ["bosh_deployment", "bosh_release_name", "bosh_release_version"]
        entries := [] }
    deploymentStemcellInfoMetric :=
      { name := buildFQName ns "deployment" "stemcell_info"
        help := "Labeled BOSH Deployment Stemcell Info with a constant '1' value."
        constLabels := constLabels
        labelNames :=
          ["bosh_deployment", "bosh_stemcell_name", "bosh_stemcell_version",
           "bosh_stemcell_os_name"]
        entries := [] }
    deploymentInstanceCountMetric :=
      { name := buildFQName ns "deployment" "instance_count"
        help := "Number of instances in this deployment"
        constLabels := constLabels
        labelNames := ["bosh_deployment", "bosh_vm_type"]
        entries := [] }
    lastDeploymentsScrapeTimestampMetric :=
      { name := buildFQName ns "" "last_deployments_scrape_timestamp"
        help := "Number of seconds since 1970 since last scrape of Deployments metrics from BOSH."
        constLabels := constLabels
        value := 0 }
    lastDeploymentsScrapeDurationSecondsMetric :=
      { name := buildFQName ns "" "last_deployments_scrape_duration_seconds"
        help := "Duration of the last scrape of Deployments metrics from BOSH."
        constLabels := constLabels
        value := 0 } }

/-- reportDeploymentReleaseInfoMetrics: for each release of the deployment,
set `release_info{deployment, release_name, release_version} = 1`.  The
returned sample list is what the helper sends on the channel: the Go body
never sends, so it is empty. -/
def DeploymentsCollector.reportDeploymentReleaseInfoMetrics
    (c : DeploymentsCollector) (deployment : DeploymentInfo) :
    DeploymentsCollector × List Sample :=
  let g :=
    deployment.releases.foldl
      (fun g release => gvSet g [deployment.name, release.name, release.version] 1)
      c.deploymentReleaseInfoMetric
  ({ c with deploymentReleaseInfoMetric := g }, [])

/-- reportDeploymentStemcellInfoMetrics: for each stemcell of the deployment,
set `stemcell_info{deployment, name, version, os_name} = 1`.  Sends nothing. -/
def DeploymentsCollector.reportDeploymentStemcellInfoMetrics
    (c : DeploymentsCollector) (deployment : DeploymentInfo) :
    DeploymentsCollector × List Sample :=
  let g :=
    deployment.stemcells.foldl
      (fun g stemcell =>
        gvSet g [deployment.name, stemcell.name, stemcell.version, stemcell.osName] 1)
      c.deploymentStemcellInfoMetric
  ({ c with deploymentStemcellInfoMetric := g }, [])

/-- reportDeploymentInstanceCountMetrics: tally instances by VM type, then
set `instance_count{deployment, vm_type} = count` for each tallied type.
Sends nothing. -/
def DeploymentsCollector.reportDeploymentInstanceCountMetrics
    (c : DeploymentsCollector) (deployment : DeploymentInfo) :
    DeploymentsCollector × List Sample :=
  let g :=
    (vmTypeCount deployment.instances).foldl
      (fun g p => gvSet g [deployment.name, p.1] p.2)
      c.deploymentInstanceCountMetric
  ({ c with deploymentInstanceCountMetric := g }, [])

/-- Body of the `for _, deployment := range deployments` loop of `Collect`:
run the three report helpers in order, appending whatever they send on the
channel to the accumulated output. -/
def collectStep (acc : DeploymentsCollector × List Sample)
    (deployment : DeploymentInfo) : DeploymentsCollector × List Sample :=
  let r1 := acc.1.reportDeploymentReleaseInfoMetrics deployment
  let r2 := r1.1.reportDeploymentStemcellInfoMetrics deployment
  let r3 := r2.1.reportDeploymentInstanceCountMetrics deployment
  (r3.1, acc.2 ++ r1.2 ++ r2.2 ++ r3.2)

/-- Result of a `Collect` call: the mutated collector, the samples sent on
the channel in order, and the returned error (`none` is Go `nil`). -/
structure CollectResult where
  collector : DeploymentsCollector
  out : List Sample
  err : Option String
deriving DecidableEq, Repr

/-- Collect: reset `release_info` and `stemcell_info`, run the three
per-deployment helpers over the snapshot, then collect the three vector
families, set and collect the timestamp gauge, set and collect the duration
gauge, and return nil. -/
def DeploymentsCollector.Collect (c : DeploymentsCollector)
    (deployments : List DeploymentInfo) (nowUnixSeconds durationSeconds : Nat) :
    CollectResult :=
  let c1 : DeploymentsCollector :=
    { c with
      deploymentReleaseInfoMetric := gvReset c.deploymentReleaseInfoMetric
      deploymentStemcellInfoMetric := gvReset c.deploymentStemcellInfoMetric }
  let loopResult : DeploymentsCollector × List Sample :=
    deployments.foldl collectStep (c1, [])
  let c2 := loopResult.1
  let out1 := gvCollect c2.deploymentReleaseInfoMetric
  let out2 := gvCollect c2.deploymentStemcellInfoMetric
  let out3 := gvCollect c2.deploymentInstanceCountMetric
  let c3 := { c2 with
    lastDeploymentsScrapeTimestampMetric :=
      gSet c2.lastDeploymentsScrapeTimestampMetric nowUnixSeconds }
  let out4 := gCollect c3.lastDeploymentsScrapeTimestampMetric
  let c4 := { c3 with
    lastDeploymentsScrapeDurationSecondsMetric :=
      gSet c3.lastDeploymentsScrapeDurationSecondsMetric durationSeconds }
  let out5 := gCollect c4.lastDeploymentsScrapeDurationSecondsMetric
  ⟨c4, loopResult.2 ++ out1 ++ out2 ++ out3 ++ out4 ++ out5, none⟩

/-- Describe: send the static descriptor of each of the five families. -/
def DeploymentsCollector.Describe (c : DeploymentsCollector) : List Desc :=
  [gvDesc c.deploymentReleaseInfoMetric,
   gvDesc c.deploymentStemcellInfoMetric,
   gvDesc c.deploymentInstanceCountMetric,
   gDesc c.lastDeploymentsScrapeTimestampMetric,
   gDesc c.lastDeploymentsScrapeDurationSecondsMetric]

/-- The (key, value) writes that `reportDeploymentReleaseInfoMetrics`
performs for one deployment, in loop order. -/
def releaseWrites (d : DeploymentInfo) : List (List String × Nat) :=
  d.releases.map (fun r => ([d.name, r.name, r.version], 1))

/-- The writes of `reportDeploymentStemcellInfoMetrics` for one deployment. -/
def stemcellWrites (d : DeploymentInfo) : List (List String × Nat) :=
  d.stemcells.map (fun s => ([d.name, s.name, s.version, s.osName], 1))

/-- The writes of `reportDeploymentInstanceCountMetrics` for one deployment. -/
def instanceWrites (d : DeploymentInfo) : List (List String × Nat) :=
  (vmTypeCount d.instances).map (fun p => ([d.name, p.1], p.2))

/-- All release writes of a whole snapshot, in loop order. -/
def releaseWritesAll (deps : List DeploymentInfo) : List (List String × Nat) :=
  deps.flatMap releaseWrites

/-- All stemcell writes of a whole snapshot, in loop order. -/
def stemcellWritesAll (deps : List DeploymentInfo) : List (List String × Nat) :=
  deps.flatMap stemcellWrites

/-- All instance-count writes of a whole snapshot, in loop order. -/
def instanceWritesAll (deps : List DeploymentInfo) : List (List String × Nat) :=
  deps.flatMap instanceWrites

/-- The (deployment, release name, release version) label combinations
present in a snapshot. -/
def releaseTriples (deps : List DeploymentInfo) : List (List String) :=
  deps.flatMap (fun d => d.releases.map (fun r => [d.name, r.name, r.version]))

/-- The (deployment, stemcell name, version, os name) label combinations
present in a snapshot. -/
def stemcellQuads (deps : List DeploymentInfo) : List (List String) :=
  deps.flatMap (fun d => d.stemcells.map (fun s => [d.name, s.name, s.version, s.osName]))

theorem setAll_nil (E : GaugeEntries) : setAll E [] = E := rfl

theorem setAll_cons (E : GaugeEntries) (w : List String × Nat) (ws : List (List String × Nat)) :
    setAll E (w :: ws) = setAll (gvSetEntries E w.1 w.2) ws := rfl

theorem setAll_append (E : GaugeEntries) (ws₁ ws₂ : List (List String × Nat)) :
    setAll E (ws₁ ++ ws₂) = setAll (setAll E ws₁) ws₂ :=
  List.foldl_append _ _ _ _

theorem gvLookup_gvSetEntries (E : GaugeEntries) (k k' : List String) (v : Nat) :
    gvLookup (gvSetEntries E k v) k' = if k = k' then some v else gvLookup E k' := by
  induction E with
  | nil =>
    by_cases h : k = k'
    · subst h; simp [gvSetEntries, gvLookup]
    · simp [gvSetEntries, gvLookup, h]
  | cons p rest ih =>
    obtain ⟨k₀, v₀⟩ := p
    by_cases h₀ : k₀ = k
    · subst h₀
      by_cases h : k₀ = k'
      · subst h; simp [gvSetEntries, gvLookup]
      · simp [gvSetEntries, gvLookup, h]
    · by_cases h : k₀ = k'
      · subst h
        have hne : ¬ k = k₀ := fun hh => h₀ hh.symm
        simp [gvSetEntries, gvLookup, h₀, hne]
      · simp [gvSetEntries, gvLookup, h₀, h, ih]

theorem gvKeys_gvSetEntries (E : GaugeEntries) (k : List String) (v : Nat) :
    gvKeys (gvSetEntries E k v) =
      if k ∈ gvKeys E then gvKeys E else gvKeys E ++ [k] := by
  induction E with
  | nil => simp [gvSetEntries, gvKeys]
  | cons p rest ih =>
    obtain ⟨k₀, v₀⟩ := p
    by_cases h₀ : k₀ = k
    · subst h₀
      simp [gvSetEntries, gvKeys]
    · have hne : ¬ k = k₀ := fun h => h₀ h.symm
      have hset : gvSetEntries ((k₀, v₀) :: rest) k v = (k₀, v₀) :: gvSetEntries rest k v := by
        simp [gvSetEntries, h₀]
      rw [hset]
      simp only [gvKeys, List.map_cons] at ih ⊢
      rw [ih]
      by_cases hmem : k ∈ rest.map Prod.fst
      · simp [hmem, hne]
      · simp [hmem, hne]

theorem mem_gvKeys_gvSetEntries (E : GaugeEntries) (k k' : List String) (v : Nat) :
    k' ∈ gvKeys (gvSetEntries E k v) ↔ k' ∈ gvKeys E ∨ k' = k := by
  rw [gvKeys_gvSetEntries]
  by_cases hmem : k ∈ gvKeys E
  · simp [hmem]
    intro h
    exact h ▸ hmem
  · simp [hmem]

theorem mem_gvKeys_setAll (ws : List (List String × Nat)) (E : GaugeEntries)
    (k : List String) :
    k ∈ gvKeys (setAll E ws) ↔ k ∈ gvKeys E ∨ k ∈ ws.map Prod.fst := by
  induction ws generalizing E with
  | nil => simp [setAll_nil]
  | cons w ws ih =>
    rw [setAll_cons, ih, mem_gvKeys_gvSetEntries]
    simp [or_assoc]

theorem gvKeys_setAll_of_sub (ws : List (List String × Nat)) (E : GaugeEntries)
    (h : ∀ w ∈ ws, w.1 ∈ gvKeys E) :
    gvKeys (setAll E ws) = gvKeys E := by
  induction ws generalizing E with
  | nil => rfl
  | cons w ws ih =>
    rw [setAll_cons]
    have hw : w.1 ∈ gvKeys E := h w (by simp)
    have hkeys : gvKeys (gvSetEntries E w.1 w.2) = gvKeys E := by
      rw [gvKeys_gvSetEntries, if_pos hw]
    rw [ih _ (fun w' hw' => by rw [hkeys]; exact h w' (by simp [hw']))]
    exact hkeys

theorem nodup_gvKeys_gvSetEntries (E : GaugeEntries) (k : List String) (v : Nat)
    (h : (gvKeys E).Nodup) : (gvKeys (gvSetEntries E k v)).Nodup := by
  rw [gvKeys_gvSetEntries]
  by_cases hmem : k ∈ gvKeys E
  · simpa [hmem]
  · simpa [hmem, List.nodup_append] using h

theorem nodup_gvKeys_setAll (ws : List (List String × Nat)) (E : GaugeEntries)
    (h : (gvKeys E).Nodup) : (gvKeys (setAll E ws)).Nodup := by
  induction ws generalizing E with
  | nil => exact h
  | cons w ws ih =>
    rw [setAll_cons]
    exact ih _ (nodup_gvKeys_gvSetEntries _ _ _ h)

theorem gvLookup_setAll (ws : List (List String × Nat)) (E : GaugeEntries)
    (k : List String) :
    gvLookup (setAll E ws) k =
      ws.foldl (fun acc w => if w.1 = k then some w.2 else acc) (gvLookup E k) := by
  induction ws generalizing E with
  | nil => rfl
  | cons w ws ih =>
    rw [setAll_cons, ih]
    simp only [List.foldl_cons]
    congr 1
    exact gvLookup_gvSetEntries _ _ _ _

theorem gvLookup_setAll_of_not_written (ws : List (List String × Nat))
    (E : GaugeEntries) (k : List String) (h : k ∉ ws.map Prod.fst) :
    gvLookup (setAll E ws) k = gvLookup E k := by
  induction ws generalizing E with
  | nil => rfl
  | cons w ws ih =>
    simp only [List.map_cons, List.mem_cons, not_or] at h
    rw [setAll_cons, ih _ h.2, gvLookup_gvSetEntries,
      if_neg (fun hh => h.1 hh.symm)]

theorem gvLookup_setAll_of_written (ws : List (List String × Nat))
    (E E' : GaugeEntries) (k : List String) (h : k ∈ ws.map Prod.fst) :
    gvLookup (setAll E ws) k = gvLookup (setAll E' ws) k := by
  induction ws generalizing E E' with
  | nil => simp at h
  | cons w ws ih =>
    by_cases hw : k ∈ ws.map Prod.fst
    · rw [setAll_cons, setAll_cons, ih _ _ hw]
    · simp only [List.map_cons, List.mem_cons] at h
      have hk : w.1 = k := by
        rcases h with h | h
        · exact h.symm
        · exact absurd h hw
      rw [setAll_cons, setAll_cons, gvLookup_setAll_of_not_written _ _ _ hw,
        gvLookup_setAll_of_not_written _ _ _ hw, gvLookup_gvSetEntries,
        gvLookup_gvSetEntries, if_pos hk, if_pos hk]

theorem exists_gvLookup_of_mem_gvKeys (E : GaugeEntries) (k : List String)
    (h : k ∈ gvKeys E) : ∃ v, gvLookup E k = some v := by
  induction E with
  | nil => simp [gvKeys] at h
  | cons p rest ih =>
    by_cases hp : p.1 = k
    · exact ⟨p.2, by obtain ⟨k₀, v₀⟩ := p; simp_all [gvLookup]⟩
    · obtain ⟨k₀, v₀⟩ := p
      simp only [gvKeys, List.map_cons, List.mem_cons] at h
      rcases h with h | h
      · exact absurd h.symm hp
      · obtain ⟨v, hv⟩ := ih h
        exact ⟨v, by simpa [gvLookup, hp] using hv⟩

theorem mem_of_gvLookup_eq_some (E : GaugeEntries) (k : List String) (v : Nat)
    (h : gvLookup E k = some v) : (k, v) ∈ E := by
  induction E with
  | nil => simp [gvLookup] at h
  | cons p rest ih =>
    obtain ⟨k₀, v₀⟩ := p
    by_cases hp : k₀ = k
    · subst hp
      simp [gvLookup] at h
      simp [h]
    · simp [gvLookup, hp] at h
      simp [ih h]

theorem gvEntries_ext (E₁ E₂ : GaugeEntries) (hkeys : gvKeys E₁ = gvKeys E₂)
    (hnd : (gvKeys E₁).Nodup) (hlook : ∀ k, gvLookup E₁ k = gvLookup E₂ k) :
    E₁ = E₂ := by
  induction E₁ generalizing E₂ with
  | nil =>
    cases E₂ with
    | nil => rfl
    | cons p rest => simp [gvKeys] at hkeys
  | cons p rest ih =>
    cases E₂ with
    | nil => simp [gvKeys] at hkeys
    | cons q rest₂ =>
      obtain ⟨k₁, v₁⟩ := p
      obtain ⟨k₂, v₂⟩ := q
      simp only [gvKeys, List.map_cons, List.cons.injEq] at hkeys
      obtain ⟨hk, hkeys'⟩ := hkeys
      subst hk
      have h₁ := hlook k₁
      simp [gvLookup] at h₁
      subst h₁
      simp only [gvKeys, List.map_cons, List.nodup_cons] at hnd
      have : rest = rest₂ := by
        refine ih rest₂ hkeys' hnd.2 (fun k => ?_)
        by_cases hk : k = k₁
        · subst hk
          have hn₁ : k ∉ gvKeys rest := hnd.1
          have hn₂ : k ∉ gvKeys rest₂ := by
            unfold gvKeys
            rw [← hkeys']
            exact hnd.1
          rcases h₁' : gvLookup rest k with _ | v
          · rcases h₂' : gvLookup rest₂ k with _ | v₂
            · rfl
            · exact absurd (List.mem_map_of_mem Prod.fst
                (mem_of_gvLookup_eq_some _ _ _ h₂')) hn₂
          · exact absurd (List.mem_map_of_mem Prod.fst
              (mem_of_gvLookup_eq_some _ _ _ h₁')) hn₁
        · have := hlook k
          have hne : ¬ k₁ = k := fun h => hk h.symm
          simpa [gvLookup, hne] using this
      rw [this]

theorem setAll_idem (ws : List (List String × Nat)) (E : GaugeEntries)
    (h : (gvKeys E).Nodup) : setAll (setAll E ws) ws = setAll E ws := by
  refine gvEntries_ext _ _ ?_ ?_ ?_
  · apply gvKeys_setAll_of_sub
    intro w hw
    exact (mem_gvKeys_setAll ws E w.1).mpr (Or.inr (List.mem_map_of_mem Prod.fst hw))
  · exact nodup_gvKeys_setAll ws _ (nodup_gvKeys_setAll ws E h)
  · intro k
    by_cases hk : k ∈ ws.map Prod.fst
    · exact gvLookup_setAll_of_written ws _ _ k hk
    · rw [gvLookup_setAll_of_not_written ws _ k hk]

theorem gvLookup_setAll_const (ws : List (List String × Nat)) (E : GaugeEntries)
    (k : List String) (v : Nat) (hv : ∀ w ∈ ws, w.2 = v)
    (hk : k ∈ ws.map Prod.fst) : gvLookup (setAll E ws) k = some v := by
  induction ws generalizing E with
  | nil => simp at hk
  | cons w ws ih =>
    rw [setAll_cons]
    by_cases hmem : k ∈ ws.map Prod.fst
    · exact ih _ (fun w' hw' => hv w' (by simp [hw'])) hmem
    · simp only [List.map_cons, List.mem_cons] at hk
      have hk1 : w.1 = k := by
        rcases hk with h | h
        · exact h.symm
        · exact absurd h hmem
      rw [gvLookup_setAll_of_not_written ws _ k hmem, gvLookup_gvSetEntries,
        if_pos hk1, hv w (by simp)]

theorem gvLookup_setAll_of_mem_nodup (ws : List (List String × Nat))
    (E : GaugeEntries) (k : List String) (v : Nat)
    (hnd : (ws.map Prod.fst).Nodup) (hmem : (k, v) ∈ ws) :
    gvLookup (setAll E ws) k = some v := by
  induction ws generalizing E with
  | nil => simp at hmem
  | cons w ws ih =>
    rw [setAll_cons]
    simp only [List.map_cons, List.nodup_cons] at hnd
    rcases List.mem_cons.mp hmem with h | h
    · have hk1 : w.1 = k := by rw [← h]
      have hk2 : w.2 = v := by rw [← h]
      have hnw : k ∉ ws.map Prod.fst := hk1 ▸ hnd.1
      rw [gvLookup_setAll_of_not_written ws _ k hnw, gvLookup_gvSetEntries,
        if_pos hk1, hk2]
    · exact ih _ hnd.2 h

theorem filter_eq_single_of_gvLookup (E : GaugeEntries) (k : List String) (v : Nat)
    (hnd : (gvKeys E).Nodup) (h : gvLookup E k = some v) :
    E.filter (fun p => p.1 == k) = [(k, v)] := by
  induction E with
  | nil => simp [gvLookup] at h
  | cons p rest ih =>
    obtain ⟨k₀, v₀⟩ := p
    simp only [gvKeys, List.map_cons, List.nodup_cons] at hnd
    by_cases hk : k₀ = k
    · subst hk
      have h' : v₀ = v := by simpa [gvLookup] using h
      subst h'
      have hrest : rest.filter (fun p => p.1 == k₀) = [] := by
        rw [List.filter_eq_nil_iff]
        intro a ha
        simp only [beq_iff_eq]
        intro he
        exact hnd.1 (he ▸ List.mem_map_of_mem Prod.fst ha)
      simp [List.filter_cons, hrest]
    · simp only [gvLookup, if_neg hk] at h
      have := ih hnd.2 h
      simp [List.filter_cons, hk, this]

theorem sLookup_vmTypeBump (m : List (String × Nat)) (k k' : String) :
    sLookup (vmTypeBump m k) k' =
      if k = k' then some ((sLookup m k').getD 0 + 1) else sLookup m k' := by
  induction m with
  | nil =>
    by_cases h : k = k'
    · subst h; simp [vmTypeBump, sLookup]
    · simp [vmTypeBump, sLookup, h]
  | cons p rest ih =>
    obtain ⟨k₀, v₀⟩ := p
    by_cases h₀ : k₀ = k
    · subst h₀
      by_cases h : k₀ = k'
      · subst h; simp [vmTypeBump, sLookup]
      · simp [vmTypeBump, sLookup, h]
    · by_cases h : k₀ = k'
      · subst h
        have hne : ¬ k = k₀ := fun hh => h₀ hh.symm
        simp [vmTypeBump, sLookup, h₀, hne]
      · simp [vmTypeBump, sLookup, h₀, h, ih]

theorem sLookup_foldl_bump (L : List Instance) (m : List (String × Nat)) (vt : String) :
    sLookup (L.foldl (fun m i => vmTypeBump m i.vmType) m) vt =
      match sLookup m vt with
      | some c => some (c + L.countP (fun i => i.vmType == vt))
      | none =>
          if L.countP (fun i => i.vmType == vt) = 0 then none
          else some (L.countP (fun i => i.vmType == vt)) := by
  induction L generalizing m with
  | nil =>
    rcases h : sLookup m vt with _ | c <;> simp [List.foldl_nil, h]
  | cons i L ih =>
    rw [List.foldl_cons, ih]
    rw [sLookup_vmTypeBump]
    by_cases hi : i.vmType = vt
    · rw [if_pos hi]
      rcases h : sLookup m vt with _ | c
      · simp only [h, Option.getD_none, List.countP_cons, hi]
        simp [Nat.add_comm]
      · simp only [h, Option.getD_some, List.countP_cons, hi]
        simp
        omega
    · rw [if_neg hi]
      rcases h : sLookup m vt with _ | c <;>
        simp [h, List.countP_cons, hi]

theorem sLookup_vmTypeCount (instances : List Instance) (vt : String) :
    sLookup (vmTypeCount instances) vt =
      if instances.countP (fun i => i.vmType == vt) = 0 then none
      else some (instances.countP (fun i => i.vmType == vt)) := by
  unfold vmTypeCount
  rw [sLookup_foldl_bump]
  simp [sLookup]

theorem keys_vmTypeBump (m : List (String × Nat)) (k : String) :
    (vmTypeBump m k).map Prod.fst =
      if k ∈ m.map Prod.fst then m.map Prod.fst else m.map Prod.fst ++ [k] := by
  induction m with
  | nil => simp [vmTypeBump]
  | cons p rest ih =>
    obtain ⟨k₀, v₀⟩ := p
    by_cases h₀ : k₀ = k
    · subst h₀
      simp [vmTypeBump]
    · have hne : ¬ k = k₀ := fun h => h₀ h.symm
      have hset : vmTypeBump ((k₀, v₀) :: rest) k = (k₀, v₀) :: vmTypeBump rest k := by
        simp [vmTypeBump, h₀]
      rw [hset]
      simp only [List.map_cons] at ih ⊢
      rw [ih]
      by_cases hmem : k ∈ rest.map Prod.fst
      · simp [hmem, hne]
      · simp [hmem, hne]

theorem nodup_keys_vmTypeBump (m : List (String × Nat)) (k : String)
    (h : (m.map Prod.fst).Nodup) : ((vmTypeBump m k).map Prod.fst).Nodup := by
  rw [keys_vmTypeBump]
  by_cases hmem : k ∈ m.map Prod.fst
  · simpa [hmem]
  · simpa [hmem, List.nodup_append] using h

theorem nodup_keys_vmTypeCount (instances : List Instance) :
    ((vmTypeCount instances).map Prod.fst).Nodup := by
  unfold vmTypeCount
  generalize hm : ([] : List (String × Nat)) = m
  have hnd : (m.map Prod.fst).Nodup := by rw [← hm]; simp
  clear hm
  induction instances generalizing m with
  | nil => exact hnd
  | cons i L ih => exact ih _ (nodup_keys_vmTypeBump _ _ hnd)

theorem mem_of_sLookup_eq_some (m : List (String × Nat)) (k : String) (v : Nat)
    (h : sLookup m k = some v) : (k, v) ∈ m := by
  induction m with
  | nil => simp [sLookup] at h
  | cons p rest ih =>
    obtain ⟨k₀, v₀⟩ := p
    by_cases hp : k₀ = k
    · subst hp
      have h' : v₀ = v := by simpa [sLookup] using h
      simp [h']
    · simp only [sLookup, if_neg hp] at h
      simp [ih h]

theorem exists_sLookup_of_mem_keys (m : List (String × Nat)) (k : String)
    (h : k ∈ m.map Prod.fst) : ∃ v, sLookup m k = some v := by
  induction m with
  | nil => simp at h
  | cons p rest ih =>
    obtain ⟨k₀, v₀⟩ := p
    by_cases hp : k₀ = k
    · exact ⟨v₀, by simp [sLookup, hp]⟩
    · simp only [List.map_cons, List.mem_cons] at h
      rcases h with h | h
      · exact absurd h.symm hp
      · obtain ⟨v, hv⟩ := ih h
        exact ⟨v, by simpa [sLookup, hp] using hv⟩

theorem foldl_gvSet_eq {α : Type} (L : List α) (key : α → List String) (val : α → Nat)
    (g : GaugeVec) :
    L.foldl (fun g a => gvSet g (key a) (val a)) g =
      { g with entries := setAll g.entries (L.map (fun a => (key a, val a))) } := by
  induction L generalizing g with
  | nil => rfl
  | cons a L ih =>
    rw [List.foldl_cons, ih]
    rfl

/-- Closed form of the collector state after the per-deployment loop of
`Collect`: each vector family's entries take all of the snapshot's writes,
everything else is untouched. -/
def loopCollector (c : DeploymentsCollector) (deps : List DeploymentInfo) :
    DeploymentsCollector :=
  let rel := c.deploymentReleaseInfoMetric
  let ste := c.deploymentStemcellInfoMetric
  let ins := c.deploymentInstanceCountMetric
  { c with
    deploymentReleaseInfoMetric :=
      { rel with entries := setAll rel.entries (releaseWritesAll deps) }
    deploymentStemcellInfoMetric :=
      { ste with entries := setAll ste.entries (stemcellWritesAll deps) }
    deploymentInstanceCountMetric :=
      { ins with entries := setAll ins.entries (instanceWritesAll deps) } }

theorem collectStep_eq (c : DeploymentsCollector) (o : List Sample)
    (d : DeploymentInfo) : collectStep (c, o) d = (loopCollector c [d], o) := by
  simp only [collectStep, DeploymentsCollector.reportDeploymentReleaseInfoMetrics,
    DeploymentsCollector.reportDeploymentStemcellInfoMetrics,
    DeploymentsCollector.reportDeploymentInstanceCountMetrics,
    loopCollector, releaseWritesAll, stemcellWritesAll, instanceWritesAll,
    List.flatMap_cons, List.flatMap_nil, List.append_nil]
  rw [foldl_gvSet_eq, foldl_gvSet_eq, foldl_gvSet_eq]
  simp [releaseWrites, stemcellWrites, instanceWrites]

theorem foldl_collectStep (deps : List DeploymentInfo) (c : DeploymentsCollector)
    (o : List Sample) :
    deps.foldl collectStep (c, o) = (loopCollector c deps, o) := by
  induction deps generalizing c o with
  | nil => rfl
  | cons d rest ih =>
    rw [List.foldl_cons, collectStep_eq, ih]
    simp only [Prod.mk.injEq, and_true]
    simp only [loopCollector, releaseWritesAll, stemcellWritesAll, instanceWritesAll,
      List.flatMap_cons, List.flatMap_nil, List.append_nil, setAll_append]

/-- Closed form of the collector state after a full `Collect` call. -/
def collectedCollector (c : DeploymentsCollector) (deps : List DeploymentInfo)
    (nowUnixSeconds durationSeconds : Nat) : DeploymentsCollector :=
  let c1 : DeploymentsCollector :=
    { c with
      deploymentReleaseInfoMetric := gvReset c.deploymentReleaseInfoMetric
      deploymentStemcellInfoMetric := gvReset c.deploymentStemcellInfoMetric }
  let c2 := loopCollector c1 deps
  { c2 with
    lastDeploymentsScrapeTimestampMetric :=
      gSet c2.lastDeploymentsScrapeTimestampMetric nowUnixSeconds
    lastDeploymentsScrapeDurationSecondsMetric :=
      gSet c2.lastDeploymentsScrapeDurationSecondsMetric durationSeconds }

theorem Collect_eq (c : DeploymentsCollector) (deps : List DeploymentInfo)
    (now dur : Nat) :
    c.Collect deps now dur =
      ⟨collectedCollector c deps now dur,
       gvCollect (collectedCollector c deps now dur).deploymentReleaseInfoMetric ++
       gvCollect (collectedCollector c deps now dur).deploymentStemcellInfoMetric ++
       gvCollect (collectedCollector c deps now dur).deploymentInstanceCountMetric ++
       gCollect (collectedCollector c deps now dur).lastDeploymentsScrapeTimestampMetric ++
       gCollect (collectedCollector c deps now dur).lastDeploymentsScrapeDurationSecondsMetric,
       none⟩ := by
  unfold DeploymentsCollector.Collect
  simp only [foldl_collectStep]
  rfl

theorem collected_rel (c : DeploymentsCollector) (deps : List DeploymentInfo)
    (now dur : Nat) :
    (collectedCollector c deps now dur).deploymentReleaseInfoMetric =
      { c.deploymentReleaseInfoMetric with
        entries := setAll [] (releaseWritesAll deps) } := rfl

theorem collected_ste (c : DeploymentsCollector) (deps : List DeploymentInfo)
    (now dur : Nat) :
    (collectedCollector c deps now dur).deploymentStemcellInfoMetric =
      { c.deploymentStemcellInfoMetric with
        entries := setAll [] (stemcellWritesAll deps) } := rfl

theorem collected_ins (c : DeploymentsCollector) (deps : List DeploymentInfo)
    (now dur : Nat) :
    (collectedCollector c deps now dur).deploymentInstanceCountMetric =
      { c.deploymentInstanceCountMetric with
        entries := setAll c.deploymentInstanceCountMetric.entries
          (instanceWritesAll deps) } := rfl

theorem collected_ts (c : DeploymentsCollector) (deps : List DeploymentInfo)
    (now dur : Nat) :
    (collectedCollector c deps now dur).lastDeploymentsScrapeTimestampMetric =
      { c.lastDeploymentsScrapeTimestampMetric with value := now } := rfl

theorem collected_dur (c : DeploymentsCollector) (deps : List DeploymentInfo)
    (now dur : Nat) :
    (collectedCollector c deps now dur).lastDeploymentsScrapeDurationSecondsMetric =
      { c.lastDeploymentsScrapeDurationSecondsMetric with value := dur } := rfl

theorem map_fst_releaseWritesAll (deps : List DeploymentInfo) :
    (releaseWritesAll deps).map Prod.fst = releaseTriples deps := by
  unfold releaseWritesAll releaseTriples releaseWrites
  rw [List.map_flatMap]
  simp [List.map_map, Function.comp_def]

theorem map_fst_stemcellWritesAll (deps : List DeploymentInfo) :
    (stemcellWritesAll deps).map Prod.fst = stemcellQuads deps := by
  unfold stemcellWritesAll stemcellQuads stemcellWrites
  rw [List.map_flatMap]
  simp [List.map_map, Function.comp_def]

theorem releaseWritesAll_val_one (deps : List DeploymentInfo) :
    ∀ w ∈ releaseWritesAll deps, w.2 = 1 := by
  intro w hw
  unfold releaseWritesAll releaseWrites at hw
  rw [List.mem_flatMap] at hw
  obtain ⟨d, _, hw⟩ := hw
  rw [List.mem_map] at hw
  obtain ⟨r, _, hw⟩ := hw
  rw [← hw]

theorem stemcellWritesAll_val_one (deps : List DeploymentInfo) :
    ∀ w ∈ stemcellWritesAll deps, w.2 = 1 := by
  intro w hw
  unfold stemcellWritesAll stemcellWrites at hw
  rw [List.mem_flatMap] at hw
  obtain ⟨d, _, hw⟩ := hw
  rw [List.mem_map] at hw
  obtain ⟨s, _, hw⟩ := hw
  rw [← hw]

theorem mem_gvCollect (g : GaugeVec) (s : Sample) (h : s ∈ gvCollect g) :
    s.name = g.name ∧ s.constLabels = g.constLabels ∧ (s.labels, s.value) ∈ g.entries := by
  unfold gvCollect at h
  rw [List.mem_map] at h
  obtain ⟨p, hp, h⟩ := h
  rw [← h]
  exact ⟨rfl, rfl, hp⟩

theorem sample_mem_gvCollect (g : GaugeVec) (k : List String) (v : Nat)
    (h : (k, v) ∈ g.entries) :
    (⟨g.name, g.constLabels, k, v⟩ : Sample) ∈ gvCollect g := by
  unfold gvCollect
  exact List.mem_map_of_mem _ h

/-- C1: for every pair of snapshots S1 and S2, after `Collect(S1)` then
`Collect(S2)`, the release_info container holds exactly the
(deployment, release name, release version) combinations present in S2 and
the stemcell_info container holds exactly the
(deployment, stemcell name, version, os name) combinations present in S2:
membership is equivalent to presence in S2 alone, so no combination present
only in S1 survives the second call. -/
theorem C1_no_stale_info_labels (c : DeploymentsCollector)
    (s1 s2 : List DeploymentInfo) (t1 d1 t2 d2 : Nat) (k : List String) :
    (k ∈ gvKeys ((c.Collect s1 t1 d1).collector.Collect s2 t2 d2).collector.deploymentReleaseInfoMetric.entries
        ↔ k ∈ releaseTriples s2) ∧
    (k ∈ gvKeys ((c.Collect s1 t1 d1).collector.Collect s2 t2 d2).collector.deploymentStemcellInfoMetric.entries
        ↔ k ∈ stemcellQuads s2) := by
  rw [Collect_eq, Collect_eq]
  constructor
  · rw [collected_rel]
    rw [mem_gvKeys_setAll, map_fst_releaseWritesAll]
    simp [gvKeys]
  · rw [collected_ste]
    rw [mem_gvKeys_setAll, map_fst_stemcellWritesAll]
    simp [gvKeys]

/-- C6: `Collect` always returns a nil error, for every collector state and
every snapshot; the implementation has no failure path. -/
theorem C6_collect_always_succeeds (c : DeploymentsCollector)
    (deps : List DeploymentInfo) (now dur : Nat) :
    (c.Collect deps now dur).err = none := by
  rw [Collect_eq]

/-- C8: `Describe` emits exactly the five static family descriptors, one per
metric family, independent of any snapshot: it is a pure read (the embedding
gives it no way to mutate the collector), successive calls return the same
list, and a `Collect` call with any snapshot leaves the emitted descriptors
unchanged. -/
theorem C8_describe_static (c : DeploymentsCollector)
    (deps : List DeploymentInfo) (now dur : Nat) :
    c.Describe =
      [gvDesc c.deploymentReleaseInfoMetric,
       gvDesc c.deploymentStemcellInfoMetric,
       gvDesc c.deploymentInstanceCountMetric,
       gDesc c.lastDeploymentsScrapeTimestampMetric,
       gDesc c.lastDeploymentsScrapeDurationSecondsMetric] ∧
    c.Describe.length = 5 ∧
    (c.Collect deps now dur).collector.Describe = c.Describe := by
  refine ⟨rfl, rfl, ?_⟩
  rw [Collect_eq]
  rfl

theorem nodup_map_fst_instanceWrites (d : DeploymentInfo) :
    ((instanceWrites d).map Prod.fst).Nodup := by
  unfold instanceWrites
  rw [List.map_map]
  have heq : (Prod.fst ∘ fun p : String × Nat => ([d.name, p.1], p.2)) =
      (fun s => [d.name, s]) ∘ Prod.fst := rfl
  rw [heq, ← List.map_map]
  exact (nodup_keys_vmTypeCount d.instances).map (fun a b hx => by simpa using hx)

theorem reportInstance_entries (c : DeploymentsCollector) (d : DeploymentInfo) :
    (c.reportDeploymentInstanceCountMetrics d).1.deploymentInstanceCountMetric.entries =
      setAll c.deploymentInstanceCountMetric.entries (instanceWrites d) := by
  simp only [DeploymentsCollector.reportDeploymentInstanceCountMetrics]
  rw [foldl_gvSet_eq]
  rfl

theorem instanceWritesAll_singleton (d : DeploymentInfo) :
    instanceWritesAll [d] = instanceWrites d := by
  simp [instanceWritesAll]

theorem not_written_of_countP_zero (d : DeploymentInfo) (vt : String)
    (h : d.instances.countP (fun i => i.vmType == vt) = 0) :
    [d.name, vt] ∉ (instanceWrites d).map Prod.fst := by
  intro hmem
  unfold instanceWrites at hmem
  rw [List.map_map, List.mem_map] at hmem
  obtain ⟨p, hp, hkey⟩ := hmem
  have hvt : p.1 = vt := by simpa using hkey
  have hkeys : vt ∈ (vmTypeCount d.instances).map Prod.fst := by
    rw [← hvt]
    exact List.mem_map_of_mem Prod.fst hp
  obtain ⟨v, hv⟩ := exists_sLookup_of_mem_keys _ _ hkeys
  rw [sLookup_vmTypeCount, if_pos h] at hv
  exact Option.noConfusion hv

theorem mem_instanceWrites_of_countP_pos (d : DeploymentInfo) (vt : String)
    (h : 0 < d.instances.countP (fun i => i.vmType == vt)) :
    ([d.name, vt], d.instances.countP (fun i => i.vmType == vt)) ∈ instanceWrites d := by
  have hlook : sLookup (vmTypeCount d.instances) vt =
      some (d.instances.countP (fun i => i.vmType == vt)) := by
    rw [sLookup_vmTypeCount, if_neg (Nat.pos_iff_ne_zero.mp h)]
  have hmem := mem_of_sLookup_eq_some _ _ _ hlook
  unfold instanceWrites
  exact List.mem_map_of_mem (fun p => ([d.name, p.1], p.2)) hmem

/-- C2: for every deployment, the per-deployment tally maps a VM type to the
number of instances of that type exactly when that number is positive, and
yields no entry at all for a VM type with zero occurrences; the helper called
by `Collect` then stores `instance_count{deployment, vm_type} = count` for
exactly the tallied VM types (a zero count leaves the container untouched at
that key), and a `Collect` over a snapshot containing the deployment stores
the same count. -/
theorem C2_instance_count_aggregation (c : DeploymentsCollector)
    (d : DeploymentInfo) (vt : String) (now dur : Nat) :
    (sLookup (vmTypeCount d.instances) vt =
      if d.instances.countP (fun i => i.vmType == vt) = 0 then none
      else some (d.instances.countP (fun i => i.vmType == vt))) ∧
    (0 < d.instances.countP (fun i => i.vmType == vt) →
      gvLookup (c.reportDeploymentInstanceCountMetrics d).1.deploymentInstanceCountMetric.entries
          [d.name, vt] =
        some (d.instances.countP (fun i => i.vmType == vt))) ∧
    (d.instances.countP (fun i => i.vmType == vt) = 0 →
      gvLookup (c.reportDeploymentInstanceCountMetrics d).1.deploymentInstanceCountMetric.entries
          [d.name, vt] =
        gvLookup c.deploymentInstanceCountMetric.entries [d.name, vt]) ∧
    (0 < d.instances.countP (fun i => i.vmType == vt) →
      gvLookup (c.Collect [d] now dur).collector.deploymentInstanceCountMetric.entries
          [d.name, vt] =
        some (d.instances.countP (fun i => i.vmType == vt))) := by
  refine ⟨sLookup_vmTypeCount _ _, ?_, ?_, ?_⟩
  · intro h
    rw [reportInstance_entries]
    exact gvLookup_setAll_of_mem_nodup _ _ _ _ (nodup_map_fst_instanceWrites d)
      (mem_instanceWrites_of_countP_pos d vt h)
  · intro h
    rw [reportInstance_entries]
    exact gvLookup_setAll_of_not_written _ _ _ (not_written_of_countP_zero d vt h)
  · intro h
    rw [Collect_eq, collected_ins, instanceWritesAll_singleton]
    exact gvLookup_setAll_of_mem_nodup _ _ _ _ (nodup_map_fst_instanceWrites d)
      (mem_instanceWrites_of_countP_pos d vt h)

/-- Witness for C2 at the spec's concrete example: instances
[small, small, large] tally to small = 2 and large = 1, the container stores
2 under (dep1, small) after the helper and after a `Collect`, and a VM type
absent from the deployment (here "xlarge" on an empty container) gets no
entry. -/
theorem C2_instance_count_aggregation_witness :
    (0 < List.countP (fun i => i.vmType == "small")
        [⟨"small"⟩, ⟨"small"⟩, (⟨"large"⟩ : Instance)] ∧
      sLookup (vmTypeCount [⟨"small"⟩, ⟨"small"⟩, (⟨"large"⟩ : Instance)]) "small" =
        some 2 ∧
      sLookup (vmTypeCount [⟨"small"⟩, ⟨"small"⟩, (⟨"large"⟩ : Instance)]) "large" =
        some 1 ∧
      sLookup (vmTypeCount [⟨"small"⟩, ⟨"small"⟩, (⟨"large"⟩ : Instance)]) "xlarge" =
        none) ∧
    gvLookup ((NewDeploymentsCollector "" "e" "b" "u").Collect
        [⟨"dep1", [], [], [⟨"small"⟩, ⟨"small"⟩, ⟨"large"⟩]⟩] 0 0).collector.deploymentInstanceCountMetric.entries
      ["dep1", "small"] = some 2 := by
  constructor
  · exact ⟨by decide,
      ((C2_instance_count_aggregation (NewDeploymentsCollector "" "e" "b" "u")
        ⟨"dep1", [], [], [⟨"small"⟩, ⟨"small"⟩, ⟨"large"⟩]⟩ "small" 0 0).1).trans (by decide),
      ((C2_instance_count_aggregation (NewDeploymentsCollector "" "e" "b" "u")
        ⟨"dep1", [], [], [⟨"small"⟩, ⟨"small"⟩, ⟨"large"⟩]⟩ "large" 0 0).1).trans (by decide),
      ((C2_instance_count_aggregation (NewDeploymentsCollector "" "e" "b" "u")
        ⟨"dep1", [], [], [⟨"small"⟩, ⟨"small"⟩, ⟨"large"⟩]⟩ "xlarge" 0 0).1).trans (by decide)⟩
  · exact ((C2_instance_count_aggregation (NewDeploymentsCollector "" "e" "b" "u")
      ⟨"dep1", [], [], [⟨"small"⟩, ⟨"small"⟩, ⟨"large"⟩]⟩ "small" 0 0).2.2.2 (by decide)).trans
      (by decide)

/-- C4: when a (deployment, release name, release version) triple occurs in
the snapshot — in particular when it occurs more than once, within or across
deployments — the container holds exactly one entry for it after `Collect`,
with value 1 (the later duplicate write supersedes the earlier one, and the
value is always 1), and likewise for duplicate stemcell combinations. -/
theorem C4_duplicate_info_last_write_wins (c : DeploymentsCollector)
    (s : List DeploymentInfo) (t dr : Nat) (k k' : List String) :
    (k ∈ releaseTriples s →
      ((c.Collect s t dr).collector.deploymentReleaseInfoMetric.entries).filter
          (fun p => p.1 == k) = [(k, 1)]) ∧
    (k' ∈ stemcellQuads s →
      ((c.Collect s t dr).collector.deploymentStemcellInfoMetric.entries).filter
          (fun p => p.1 == k') = [(k', 1)]) := by
  constructor
  · intro hk
    rw [Collect_eq, collected_rel]
    refine filter_eq_single_of_gvLookup _ _ _ ?_ ?_
    · exact nodup_gvKeys_setAll _ [] (by simp [gvKeys])
    · refine gvLookup_setAll_const _ _ _ _ (releaseWritesAll_val_one s) ?_
      rw [map_fst_releaseWritesAll]
      exact hk
  · intro hk
    rw [Collect_eq, collected_ste]
    refine filter_eq_single_of_gvLookup _ _ _ ?_ ?_
    · exact nodup_gvKeys_setAll _ [] (by simp [gvKeys])
    · refine gvLookup_setAll_const _ _ _ _ (stemcellWritesAll_val_one s) ?_
      rw [map_fst_stemcellWritesAll]
      exact hk

/-- Witness for C4 at the spec's duplicate example: a deployment with
releases [(r1, 1.0), (r1, 1.0)] and stemcells [(sc, 1, ub), (sc, 1, ub)]
yields exactly one container entry for each duplicated combination, with
value 1. -/
theorem C4_duplicate_info_last_write_wins_witness :
    (["dep1", "r1", "1.0"] ∈ releaseTriples
        [⟨"dep1", [⟨"r1", "1.0"⟩, ⟨"r1", "1.0"⟩], [⟨"sc", "1", "ub"⟩, ⟨"sc", "1", "ub"⟩], []⟩]) ∧
    ((((NewDeploymentsCollector "" "e" "b" "u").Collect
        [⟨"dep1", [⟨"r1", "1.0"⟩, ⟨"r1", "1.0"⟩], [⟨"sc", "1", "ub"⟩, ⟨"sc", "1", "ub"⟩], []⟩]
        0 0).collector.deploymentReleaseInfoMetric.entries).filter
      (fun p => p.1 == ["dep1", "r1", "1.0"]) = [(["dep1", "r1", "1.0"], 1)]) ∧
    ((((NewDeploymentsCollector "" "e" "b" "u").Collect
        [⟨"dep1", [⟨"r1", "1.0"⟩, ⟨"r1", "1.0"⟩], [⟨"sc", "1", "ub"⟩, ⟨"sc", "1", "ub"⟩], []⟩]
        0 0).collector.deploymentStemcellInfoMetric.entries).filter
      (fun p => p.1 == ["dep1", "sc", "1", "ub"]) = [(["dep1", "sc", "1", "ub"], 1)]) :=
  ⟨by decide,
   (C4_duplicate_info_last_write_wins (NewDeploymentsCollector "" "e" "b" "u")
      [⟨"dep1", [⟨"r1", "1.0"⟩, ⟨"r1", "1.0"⟩], [⟨"sc", "1", "ub"⟩, ⟨"sc", "1", "ub"⟩], []⟩]
      0 0 ["dep1", "r1", "1.0"] ["dep1", "sc", "1", "ub"]).1 (by decide),
   (C4_duplicate_info_last_write_wins (NewDeploymentsCollector "" "e" "b" "u")
      [⟨"dep1", [⟨"r1", "1.0"⟩, ⟨"r1", "1.0"⟩], [⟨"sc", "1", "ub"⟩, ⟨"sc", "1", "ub"⟩], []⟩]
      0 0 ["dep1", "r1", "1.0"] ["dep1", "sc", "1", "ub"]).2 (by decide)⟩

/-- C3: calling `Collect` twice in succession with an identical snapshot
yields identical release_info, stemcell_info and instance_count sample
sequences; the two outputs differ only in the two trailing samples, the
timestamp and duration.  The hypothesis that the instance_count container
has no duplicate label keys holds for every reachable collector:
construction gives an empty container and every store keeps keys unique. -/
theorem C3_collect_idempotent (c : DeploymentsCollector)
    (deps : List DeploymentInfo) (t1 d1 t2 d2 : Nat)
    (h : (gvKeys c.deploymentInstanceCountMetric.entries).Nodup) :
    ∃ v ts1 dur1 ts2 dur2,
      (c.Collect deps t1 d1).out = v ++ [ts1, dur1] ∧
      ((c.Collect deps t1 d1).collector.Collect deps t2 d2).out =
        v ++ [ts2, dur2] := by
  refine ⟨gvCollect { c.deploymentReleaseInfoMetric with
        entries := setAll [] (releaseWritesAll deps) } ++
      gvCollect { c.deploymentStemcellInfoMetric with
        entries := setAll [] (stemcellWritesAll deps) } ++
      gvCollect { c.deploymentInstanceCountMetric with
        entries := setAll c.deploymentInstanceCountMetric.entries
          (instanceWritesAll deps) },
    ⟨c.lastDeploymentsScrapeTimestampMetric.name,
     c.lastDeploymentsScrapeTimestampMetric.constLabels, [], t1⟩,
    ⟨c.lastDeploymentsScrapeDurationSecondsMetric.name,
     c.lastDeploymentsScrapeDurationSecondsMetric.constLabels, [], d1⟩,
    ⟨c.lastDeploymentsScrapeTimestampMetric.name,
     c.lastDeploymentsScrapeTimestampMetric.constLabels, [], t2⟩,
    ⟨c.lastDeploymentsScrapeDurationSecondsMetric.name,
     c.lastDeploymentsScrapeDurationSecondsMetric.constLabels, [], d2⟩,
    ?_, ?_⟩
  · rw [Collect_eq]
    simp [collected_rel, collected_ste, collected_ins, collected_ts, collected_dur,
      gCollect, List.append_assoc]
  · rw [Collect_eq, Collect_eq]
    simp only [collected_rel, collected_ste, collected_ins, collected_ts, collected_dur]
    rw [setAll_idem _ _ h]
    simp [gCollect, List.append_assoc]

/-- Witness for C3 on a concrete collector and snapshot. -/
theorem C3_collect_idempotent_witness :
    (gvKeys (NewDeploymentsCollector "" "e" "b" "u").deploymentInstanceCountMetric.entries).Nodup ∧
    ∃ v ts1 dur1 ts2 dur2,
      ((NewDeploymentsCollector "" "e" "b" "u").Collect
          [⟨"dep", [⟨"r", "1"⟩], [], [⟨"small"⟩]⟩] 3 4).out = v ++ [ts1, dur1] ∧
      (((NewDeploymentsCollector "" "e" "b" "u").Collect
          [⟨"dep", [⟨"r", "1"⟩], [], [⟨"small"⟩]⟩] 3 4).collector.Collect
          [⟨"dep", [⟨"r", "1"⟩], [], [⟨"small"⟩]⟩] 7 8).out = v ++ [ts2, dur2] :=
  ⟨by decide,
   C3_collect_idempotent (NewDeploymentsCollector "" "e" "b" "u")
     [⟨"dep", [⟨"r", "1"⟩], [], [⟨"small"⟩]⟩] 3 4 7 8 (by decide)⟩

/-- C5 (amended): a `Collect` with the empty snapshot on a freshly
constructed collector emits zero samples for the three deployment-scoped
families and exactly one sample each for the timestamp and duration gauges;
on an arbitrary collector state, release_info and stemcell_info emit zero
samples but instance_count re-emits whatever label combinations its
container already holds (the container is never reset), so the zero-sample
guarantee does not extend to instance_count after earlier non-empty calls. -/
theorem C5_empty_snapshot_emissions (ns e b u : String)
    (c : DeploymentsCollector) (t dr : Nat) :
    ((NewDeploymentsCollector ns e b u).Collect [] t dr).out =
      [⟨buildFQName ns "" "last_deployments_scrape_timestamp",
        [("environment", e), ("bosh_name", b), ("bosh_uuid", u)], [], t⟩,
       ⟨buildFQName ns "" "last_deployments_scrape_duration_seconds",
        [("environment", e), ("bosh_name", b), ("bosh_uuid", u)], [], dr⟩] ∧
    (c.Collect [] t dr).out =
      gvCollect c.deploymentInstanceCountMetric ++
      [⟨c.lastDeploymentsScrapeTimestampMetric.name,
        c.lastDeploymentsScrapeTimestampMetric.constLabels, [], t⟩,
       ⟨c.lastDeploymentsScrapeDurationSecondsMetric.name,
        c.lastDeploymentsScrapeDurationSecondsMetric.constLabels, [], dr⟩] := by
  constructor
  · rfl
  · rw [Collect_eq]
    simp [collected_rel, collected_ste, collected_ins, collected_ts, collected_dur,
      gCollect, gvCollect, releaseWritesAll, stemcellWritesAll, instanceWritesAll,
      setAll_nil]

/-- Counterexample for C5 as stated: the zero-sample property does not hold
for every collector state.  After one `Collect` with a snapshot holding one
instance, a `Collect` with the empty snapshot emits one
deployment_instance_count sample and three samples in total, not the two
(timestamp and duration) that the claim allows. -/
theorem C5_empty_snapshot_counterexample :
    ((((NewDeploymentsCollector "" "e" "b" "u").Collect
        [⟨"dep", [], [], [⟨"small"⟩]⟩] 0 0).collector.Collect [] 1 1).out.filter
      (fun s => s.name == "deployment_instance_count")).length = 1 ∧
    (((NewDeploymentsCollector "" "e" "b" "u").Collect
        [⟨"dep", [], [], [⟨"small"⟩]⟩] 0 0).collector.Collect [] 1 1).out.length = 3 := by
  decide

/-- All five metric families of a collector carry the same constant labels. -/
def constLabelsOk (c : DeploymentsCollector) (L : List (String × String)) : Prop :=
  c.deploymentReleaseInfoMetric.constLabels = L ∧
  c.deploymentStemcellInfoMetric.constLabels = L ∧
  c.deploymentInstanceCountMetric.constLabels = L ∧
  c.lastDeploymentsScrapeTimestampMetric.constLabels = L ∧
  c.lastDeploymentsScrapeDurationSecondsMetric.constLabels = L

/-- C7: construction bakes the constant labels environment, bosh_name,
bosh_uuid into all five families, with the namespace entering only the
metric names (via the prometheus name builder); `Collect` preserves the
constant labels of every family, and every sample it emits carries them. -/
theorem C7_constant_labels (ns e b u : String) (c : DeploymentsCollector)
    (L : List (String × String)) (deps : List DeploymentInfo) (t dr : Nat) :
    constLabelsOk (NewDeploymentsCollector ns e b u)
      [("environment", e), ("bosh_name", b), ("bosh_uuid", u)] ∧
    ((NewDeploymentsCollector ns e b u).deploymentReleaseInfoMetric.name =
        buildFQName ns "deployment" "release_info" ∧
      (NewDeploymentsCollector ns e b u).deploymentStemcellInfoMetric.name =
        buildFQName ns "deployment" "stemcell_info" ∧
      (NewDeploymentsCollector ns e b u).deploymentInstanceCountMetric.name =
        buildFQName ns "deployment" "instance_count" ∧
      (NewDeploymentsCollector ns e b u).lastDeploymentsScrapeTimestampMetric.name =
        buildFQName ns "" "last_deployments_scrape_timestamp" ∧
      (NewDeploymentsCollector ns e b u).lastDeploymentsScrapeDurationSecondsMetric.name =
        buildFQName ns "" "last_deployments_scrape_duration_seconds") ∧
    (constLabelsOk c L →
      constLabelsOk (c.Collect deps t dr).collector L ∧
      ∀ s ∈ (c.Collect deps t dr).out, s.constLabels = L) := by
  refine ⟨⟨rfl, rfl, rfl, rfl, rfl⟩, ⟨rfl, rfl, rfl, rfl, rfl⟩, fun h => ⟨?_, ?_⟩⟩
  · rw [Collect_eq]
    exact h
  · intro s hs
    rw [Collect_eq] at hs
    simp only [List.mem_append] at hs
    rcases hs with ((((hs | hs) | hs) | hs) | hs)
    · rw [(mem_gvCollect _ _ hs).2.1, collected_rel]
      exact h.1
    · rw [(mem_gvCollect _ _ hs).2.1, collected_ste]
      exact h.2.1
    · rw [(mem_gvCollect _ _ hs).2.1, collected_ins]
      exact h.2.2.1
    · rw [collected_ts] at hs
      simp only [gCollect, List.mem_singleton] at hs
      rw [hs]
      exact h.2.2.2.1
    · rw [collected_dur] at hs
      simp only [gCollect, List.mem_singleton] at hs
      rw [hs]
      exact h.2.2.2.2

/-- Witness for C7 on a concrete collector, snapshot and label set. -/
theorem C7_constant_labels_witness :
    constLabelsOk (NewDeploymentsCollector "bosh" "env" "bn" "bu")
      [("environment", "env"), ("bosh_name", "bn"), ("bosh_uuid", "bu")] ∧
    constLabelsOk ((NewDeploymentsCollector "bosh" "env" "bn" "bu").Collect
        [⟨"dep", [⟨"r", "1"⟩], [⟨"s", "2", "os"⟩], [⟨"small"⟩]⟩] 5 6).collector
      [("environment", "env"), ("bosh_name", "bn"), ("bosh_uuid", "bu")] ∧
    ∀ s ∈ ((NewDeploymentsCollector "bosh" "env" "bn" "bu").Collect
        [⟨"dep", [⟨"r", "1"⟩], [⟨"s", "2", "os"⟩], [⟨"small"⟩]⟩] 5 6).out,
      s.constLabels = [("environment", "env"), ("bosh_name", "bn"), ("bosh_uuid", "bu")] :=
  ⟨(C7_constant_labels "bosh" "env" "bn" "bu"
      (NewDeploymentsCollector "bosh" "env" "bn" "bu")
      [("environment", "env"), ("bosh_name", "bn"), ("bosh_uuid", "bu")]
      [⟨"dep", [⟨"r", "1"⟩], [⟨"s", "2", "os"⟩], [⟨"small"⟩]⟩] 5 6).1,
   ((C7_constant_labels "bosh" "env" "bn" "bu"
      (NewDeploymentsCollector "bosh" "env" "bn" "bu")
      [("environment", "env"), ("bosh_name", "bn"), ("bosh_uuid", "bu")]
      [⟨"dep", [⟨"r", "1"⟩], [⟨"s", "2", "os"⟩], [⟨"small"⟩]⟩] 5 6).2.2
      ⟨rfl, rfl, rfl, rfl, rfl⟩).1,
   ((C7_constant_labels "bosh" "env" "bn" "bu"
      (NewDeploymentsCollector "bosh" "env" "bn" "bu")
      [("environment", "env"), ("bosh_name", "bn"), ("bosh_uuid", "bu")]
      [⟨"dep", [⟨"r", "1"⟩], [⟨"s", "2", "os"⟩], [⟨"small"⟩]⟩] 5 6).2.2
      ⟨rfl, rfl, rfl, rfl, rfl⟩).2⟩

/-- C9: `Collect` resets only release_info and stemcell_info; the
instance_count container is never cleared.  Every label combination already
stored in it survives any further `Collect` call, a sample for it is emitted
again, and when the new snapshot does not write that combination its stored
count is unchanged. -/
theorem C9_instance_count_never_cleared (c : DeploymentsCollector)
    (deps : List DeploymentInfo) (t dr : Nat) (k : List String)
    (h : k ∈ gvKeys c.deploymentInstanceCountMetric.entries) :
    k ∈ gvKeys (c.Collect deps t dr).collector.deploymentInstanceCountMetric.entries ∧
    (∃ v, gvLookup (c.Collect deps t dr).collector.deploymentInstanceCountMetric.entries k =
        some v ∧
      (⟨c.deploymentInstanceCountMetric.name,
        c.deploymentInstanceCountMetric.constLabels, k, v⟩ : Sample) ∈
        (c.Collect deps t dr).out) ∧
    (k ∉ (instanceWritesAll deps).map Prod.fst →
      gvLookup (c.Collect deps t dr).collector.deploymentInstanceCountMetric.entries k =
        gvLookup c.deploymentInstanceCountMetric.entries k) := by
  have hmem : k ∈ gvKeys (c.Collect deps t dr).collector.deploymentInstanceCountMetric.entries := by
    rw [Collect_eq, collected_ins]
    exact (mem_gvKeys_setAll _ _ _).mpr (Or.inl h)
  refine ⟨hmem, ?_, ?_⟩
  · obtain ⟨v, hv⟩ := exists_gvLookup_of_mem_gvKeys _ _ hmem
    refine ⟨v, hv, ?_⟩
    have hent : (k, v) ∈ (c.Collect deps t dr).collector.deploymentInstanceCountMetric.entries :=
      mem_of_gvLookup_eq_some _ _ _ hv
    rw [Collect_eq] at hent ⊢
    simp only [List.mem_append]
    refine Or.inl (Or.inl (Or.inr ?_))
    have := sample_mem_gvCollect
      (collectedCollector c deps t dr).deploymentInstanceCountMetric k v hent
    rw [collected_ins] at this
    exact this
  · intro hnw
    rw [Collect_eq, collected_ins]
    exact gvLookup_setAll_of_not_written _ _ _ hnw

/-- Witness for C9: the combination (dep, small) stored by a first `Collect`
survives a second `Collect` with the empty snapshot, keeping its count. -/
theorem C9_instance_count_never_cleared_witness :
    (["dep", "small"] ∈ gvKeys ((NewDeploymentsCollector "" "e" "b" "u").Collect
        [⟨"dep", [], [], [⟨"small"⟩]⟩] 0 0).collector.deploymentInstanceCountMetric.entries) ∧
    (["dep", "small"] ∈ gvKeys (((NewDeploymentsCollector "" "e" "b" "u").Collect
        [⟨"dep", [], [], [⟨"small"⟩]⟩] 0 0).collector.Collect
        [] 1 1).collector.deploymentInstanceCountMetric.entries ∧
      (∃ v, gvLookup (((NewDeploymentsCollector "" "e" "b" "u").Collect
          [⟨"dep", [], [], [⟨"small"⟩]⟩] 0 0).collector.Collect
          [] 1 1).collector.deploymentInstanceCountMetric.entries ["dep", "small"] =
          some v ∧
        (⟨((NewDeploymentsCollector "" "e" "b" "u").Collect
            [⟨"dep", [], [], [⟨"small"⟩]⟩] 0 0).collector.deploymentInstanceCountMetric.name,
          ((NewDeploymentsCollector "" "e" "b" "u").Collect
            [⟨"dep", [], [], [⟨"small"⟩]⟩] 0 0).collector.deploymentInstanceCountMetric.constLabels,
          ["dep", "small"], v⟩ : Sample) ∈
          (((NewDeploymentsCollector "" "e" "b" "u").Collect
            [⟨"dep", [], [], [⟨"small"⟩]⟩] 0 0).collector.Collect [] 1 1).out) ∧
      (["dep", "small"] ∉ (instanceWritesAll []).map Prod.fst →
        gvLookup (((NewDeploymentsCollector "" "e" "b" "u").Collect
            [⟨"dep", [], [], [⟨"small"⟩]⟩] 0 0).collector.Collect
            [] 1 1).collector.deploymentInstanceCountMetric.entries ["dep", "small"] =
          gvLookup ((NewDeploymentsCollector "" "e" "b" "u").Collect
            [⟨"dep", [], [], [⟨"small"⟩]⟩] 0 0).collector.deploymentInstanceCountMetric.entries
            ["dep", "small"])) :=
  ⟨by decide,
   C9_instance_count_never_cleared
     ((NewDeploymentsCollector "" "e" "b" "u").Collect
       [⟨"dep", [], [], [⟨"small"⟩]⟩] 0 0).collector [] 1 1 ["dep", "small"] (by decide)⟩

/-- C10: within one `Collect` call no sample reaches the channel during the
per-deployment loop — each report helper's emission list is empty — and the
output then consists of five contiguous blocks in the fixed order
release_info, stemcell_info, instance_count, timestamp, duration, each block
carrying its family's metric name. -/
theorem C10_emission_order (c : DeploymentsCollector)
    (deps : List DeploymentInfo) (t dr : Nat) (c' : DeploymentsCollector)
    (d' : DeploymentInfo) :
    (c'.reportDeploymentReleaseInfoMetrics d').2 = [] ∧
    (c'.reportDeploymentStemcellInfoMetrics d').2 = [] ∧
    (c'.reportDeploymentInstanceCountMetrics d').2 = [] ∧
    ∃ A B C ts dur,
      (c.Collect deps t dr).out = A ++ B ++ C ++ [ts] ++ [dur] ∧
      (∀ s ∈ A, s.name = c.deploymentReleaseInfoMetric.name) ∧
      (∀ s ∈ B, s.name = c.deploymentStemcellInfoMetric.name) ∧
      (∀ s ∈ C, s.name = c.deploymentInstanceCountMetric.name) ∧
      ts.name = c.lastDeploymentsScrapeTimestampMetric.name ∧
      dur.name = c.lastDeploymentsScrapeDurationSecondsMetric.name := by
  refine ⟨rfl, rfl, rfl,
    gvCollect (collectedCollector c deps t dr).deploymentReleaseInfoMetric,
    gvCollect (collectedCollector c deps t dr).deploymentStemcellInfoMetric,
    gvCollect (collectedCollector c deps t dr).deploymentInstanceCountMetric,
    ⟨c.lastDeploymentsScrapeTimestampMetric.name,
     c.lastDeploymentsScrapeTimestampMetric.constLabels, [], t⟩,
    ⟨c.lastDeploymentsScrapeDurationSecondsMetric.name,
     c.lastDeploymentsScrapeDurationSecondsMetric.constLabels, [], dr⟩,
    ?_, ?_, ?_, ?_, rfl, rfl⟩
  · rw [Collect_eq]
    rfl
  · intro s hs
    rw [(mem_gvCollect _ _ hs).1, collected_rel]
  · intro s hs
    rw [(mem_gvCollect _ _ hs).1, collected_ste]
  · intro s hs
    rw [(mem_gvCollect _ _ hs).1, collected_ins]

end Collectors
